import Mathlib

/-!
Harmony sync API and federation resolver: a verification development.

Shallow embedding of

* `syncapi/streams/streams.go` (`Streams`, `NewSyncStreamProviders`, `Streams.Latest`),
* `syncapi/consumers/receipts.go` (`OutputReceiptEventConsumer.onMessage`),
* `internal/gomatrixserverlib/fclient/resolve.go` (`ResolveServer`, `resolveServer`,
  `handleNoWellKnown`, `lookupSRV`).

Go strings are byte sequences; they are embedded as lists of byte values.
Calls made on collaborators (storage, stream providers, notifier, network) are
recorded, in program order, in a call log that every embedded function returns
next to its result.
-/

namespace Harmony

/-- A Go string: its bytes, in order. -/
abbrev GoString := List Nat

/-- The bytes of an ASCII literal. -/
def ascii (s : String) : GoString := s.toList.map Char.toNat

/-- Position of one category (`types.StreamPosition`); positions are only copied and compared. -/
abbrev StreamPosition := Int

/-- The composite sync token (`types.StreamingToken`): one position per category. A field
left out of a Go composite literal holds the zero value. -/
structure StreamingToken where
  PDUPosition : StreamPosition := 0
  TypingPosition : StreamPosition := 0
  ReceiptPosition : StreamPosition := 0
  InvitePosition : StreamPosition := 0
  SendToDevicePosition : StreamPosition := 0
  AccountDataPosition : StreamPosition := 0
  NotificationDataPosition : StreamPosition := 0
  DeviceListPosition : StreamPosition := 0
  PresencePosition : StreamPosition := 0
  deriving DecidableEq, Repr

namespace streams

/-- The nine categories, one per field of `Streams`. -/
inductive Category where
  | PDU
  | Typing
  | Receipt
  | Invite
  | SendToDevice
  | AccountData
  | NotificationData
  | DeviceList
  | Presence
  deriving DecidableEq, Repr

/-- The `StreamProvider` interface as `streams.go` uses it. `P` is the type of provider
values (it carries the dynamic type), `DB` the live state of storage a provider can reach
through its `DB` field, `Snap` a database snapshot. `new c` is the composite literal that
`NewSyncStreamProviders` builds for category `c`. A method changes its receiver only. -/
structure StreamProvider (DB Snap P : Type) where
  new : Category → P
  Setup : DB → Snap → P → P
  LatestPosition : P → StreamPosition

/-- The struct `Streams`: nine providers, in the order of the Go declaration. -/
structure Streams (P : Type) where
  PDUStreamProvider : P
  TypingStreamProvider : P
  ReceiptStreamProvider : P
  InviteStreamProvider : P
  SendToDeviceStreamProvider : P
  AccountDataStreamProvider : P
  DeviceListStreamProvider : P
  NotificationDataStreamProvider : P
  PresenceStreamProvider : P

/-- The method `Streams.Latest`. -/
def Streams.Latest {DB Snap P : Type} (I : StreamProvider DB Snap P) (s : Streams P) :
    StreamingToken :=
  { PDUPosition := I.LatestPosition s.PDUStreamProvider
    TypingPosition := I.LatestPosition s.TypingStreamProvider
    ReceiptPosition := I.LatestPosition s.ReceiptStreamProvider
    InvitePosition := I.LatestPosition s.InviteStreamProvider
    SendToDevicePosition := I.LatestPosition s.SendToDeviceStreamProvider
    AccountDataPosition := I.LatestPosition s.AccountDataStreamProvider
    NotificationDataPosition := I.LatestPosition s.NotificationDataStreamProvider
    DeviceListPosition := I.LatestPosition s.DeviceListStreamProvider
    PresencePosition := I.LatestPosition s.PresenceStreamProvider }

/-- Calls `NewSyncStreamProviders` makes on its collaborators. -/
inductive Call (Snap : Type) where
  | NewDatabaseSnapshot
  | Setup (provider : Category) (snapshot : Snap)
  | EndTransactionWithCheck (snapshot : Snap) (succeeded : Bool)
  deriving DecidableEq, Repr

/-- How a call of `NewSyncStreamProviders` ends. -/
inductive Outcome (Err P : Type) where
  | panicked (err : Err)
  | returned (streams : Streams P)

/-- The constructor `NewSyncStreamProviders`. `newSnapshot` is `d.NewDatabaseSnapshot`; `live k` is the state
of storage when the function makes its `k`-th call (0 for `NewDatabaseSnapshot`, 1 to 9 for
the `Setup` calls), so that writes by other goroutines are any change from `live k` to
`live (k+1)`. The deferred `EndTransactionWithCheck` runs on return, after
`succeeded = true`; when `NewDatabaseSnapshot` fails the function panics before the
`defer` statement is reached. -/
def NewSyncStreamProviders {DB Snap Err P : Type} (I : StreamProvider DB Snap P)
    (newSnapshot : DB → Except Err Snap) (live : Nat → DB) :
    List (Call Snap) × Outcome Err P :=
  let streams : Streams P :=
    { PDUStreamProvider := I.new .PDU
      TypingStreamProvider := I.new .Typing
      ReceiptStreamProvider := I.new .Receipt
      InviteStreamProvider := I.new .Invite
      SendToDeviceStreamProvider := I.new .SendToDevice
      AccountDataStreamProvider := I.new .AccountData
      NotificationDataStreamProvider := I.new .NotificationData
      DeviceListStreamProvider := I.new .DeviceList
      PresenceStreamProvider := I.new .Presence }
  match newSnapshot (live 0) with
  | .error err => ([.NewDatabaseSnapshot], .panicked err)
  | .ok snapshot =>
    let streams := { streams with
      PDUStreamProvider := I.Setup (live 1) snapshot streams.PDUStreamProvider }
    let streams := { streams with
      TypingStreamProvider := I.Setup (live 2) snapshot streams.TypingStreamProvider }
    let streams := { streams with
      ReceiptStreamProvider := I.Setup (live 3) snapshot streams.ReceiptStreamProvider }
    let streams := { streams with
      InviteStreamProvider := I.Setup (live 4) snapshot streams.InviteStreamProvider }
    let streams := { streams with
      SendToDeviceStreamProvider :=
        I.Setup (live 5) snapshot streams.SendToDeviceStreamProvider }
    let streams := { streams with
      AccountDataStreamProvider :=
        I.Setup (live 6) snapshot streams.AccountDataStreamProvider }
    let streams := { streams with
      NotificationDataStreamProvider :=
        I.Setup (live 7) snapshot streams.NotificationDataStreamProvider }
    let streams := { streams with
      DeviceListStreamProvider := I.Setup (live 8) snapshot streams.DeviceListStreamProvider }
    let streams := { streams with
      PresenceStreamProvider := I.Setup (live 9) snapshot streams.PresenceStreamProvider }
    ([.NewDatabaseSnapshot, .Setup .PDU snapshot, .Setup .Typing snapshot,
      .Setup .Receipt snapshot, .Setup .Invite snapshot, .Setup .SendToDevice snapshot,
      .Setup .AccountData snapshot, .Setup .NotificationData snapshot,
      .Setup .DeviceList snapshot, .Setup .Presence snapshot,
      .EndTransactionWithCheck snapshot true], .returned streams)

/-- Modelled from the spec: `DefaultStreamProvider` of package streams, whose source file is
missing; the base struct every provider embeds, it owns the in-memory high-water mark. -/
structure DefaultStreamProvider where
  latest : StreamPosition
  deriving DecidableEq, Repr

/-- Modelled from the spec: `DefaultStreamProvider.LatestPosition`, whose source file is
missing; it "returns the current in-memory high-water mark". -/
def DefaultStreamProvider.LatestPosition (p : DefaultStreamProvider) : StreamPosition :=
  p.latest

/-- Modelled from the spec: `DefaultStreamProvider.Advance`, whose source file is missing;
it "sets the in-memory high-water mark to `max(current, newPosition)`". -/
def DefaultStreamProvider.Advance (p : DefaultStreamProvider) (newPosition : StreamPosition) :
    DefaultStreamProvider :=
  { p with latest := max p.latest newPosition }

/-- A sequence of `Advance` calls on one provider, in call order. -/
def DefaultStreamProvider.AdvanceAll (p : DefaultStreamProvider)
    (positions : List StreamPosition) : DefaultStreamProvider :=
  positions.foldl DefaultStreamProvider.Advance p

/-- The largest of `p1..pn`, the first given apart: `max(p1..pn)` for a sequence `p1 :: rest`. -/
def maxOf (p1 : StreamPosition) (rest : List StreamPosition) : StreamPosition :=
  rest.foldl max p1

/-- An example of providers: each holds its category and a `DefaultStreamProvider`; storage
and snapshots map a category to its largest durable position, and `Setup` reads the
position of the provider's category from the snapshot. -/
def exampleProviders : StreamProvider (Category → StreamPosition) (Category → StreamPosition)
    (Category × DefaultStreamProvider) where
  new c := (c, { latest := 0 })
  Setup _ snapshot p := (p.1, { latest := snapshot p.1 })
  LatestPosition p := p.2.LatestPosition

/-- An example of storage under concurrent writes: at step `k` every category has gained
`k` positions over `PDU: 5, Typing: 3, Receipt: 9` and zero elsewhere. -/
def exampleStorage (k : Nat) : Category → StreamPosition
  | .PDU => 5 + k
  | .Typing => 3 + k
  | .Receipt => 9 + k
  | _ => k

end streams

namespace strconv

/-- The two errors of `strconv.ParseUint`. -/
inductive NumError where
  | ErrSyntax
  | ErrRange
  deriving DecidableEq, Repr

/-- The constant `maxUint64` of package strconv. -/
def maxUint64 : Nat := 2 ^ 64 - 1

/-- The function `lower` of package strconv: `c | ('x' - 'X')`. -/
def lower (c : Nat) : Nat := c ||| 32

/-- The loop of `strconv.ParseUint` at `base = 10`, `bitSize = 64` (so `base0` is false,
`cutoff = maxUint64/10 + 1` and `maxVal = 1<<64 - 1`), over the bytes still to read, with
`n` the `uint64` accumulator. Arithmetic on `n` wraps modulo `2^64` as in Go. The value Go
returns next to an error is not kept: the caller reads it only when the error is nil. -/
def parseUintLoop : GoString → Nat → Except NumError Nat
  | [], n => .ok n
  | c :: rest, n =>
    let digit : Option Nat :=
      if 48 ≤ c ∧ c ≤ 57 then some (c - 48)
      else if 97 ≤ lower c ∧ lower c ≤ 122 then some (lower c - 97 + 10)
      else none
    match digit with
    | none => .error .ErrSyntax
    | some d =>
      if d ≥ 10 then .error .ErrSyntax
      else if n ≥ maxUint64 / 10 + 1 then .error .ErrRange
      else
        let n10 := (n * 10) % 2 ^ 64
        let n1 := (n10 + d) % 2 ^ 64
        if n1 < n10 ∨ n1 > maxUint64 then .error .ErrRange
        else parseUintLoop rest n1

/-- The call `strconv.ParseUint(s, 10, 64)`. -/
def ParseUint (s : GoString) : Except NumError Nat :=
  if s = [] then .error .ErrSyntax else parseUintLoop s 0

/-- The number a string of decimal digits denotes, read from the left onto `n`. -/
def decimalValue (s : GoString) (n : Nat) : Nat :=
  s.foldl (fun acc c => acc * 10 + (c - 48)) n

/-- A valid base-10 unsigned 64-bit integer: not empty, only the digits `0` to `9` (so no
sign), and a value of at most `2^64 - 1`. -/
def IsDecimalUint64 (s : GoString) : Prop :=
  s ≠ [] ∧ (∀ c ∈ s, 48 ≤ c ∧ c ≤ 57) ∧ decimalValue s 0 ≤ 2 ^ 64 - 1

instance (s : GoString) : Decidable (IsDecimalUint64 s) := by
  unfold IsDecimalUint64; infer_instance

end strconv

namespace consumers

/-- A bus message, as `onMessage` reads it: `Header key` is `msg.Header.Get(key)`. -/
structure Msg where
  Header : GoString → GoString

/-- The header names `jetstream.UserID`, `jetstream.RoomID` and `jetstream.EventID` that
`onMessage` reads; their values are constants of package jetstream. -/
structure HeaderNames where
  UserID : GoString
  RoomID : GoString
  EventID : GoString

/-- The struct `types.OutputReceiptEvent`; `Timestamp` is a `spec.Timestamp`, a `uint64`. -/
structure OutputReceiptEvent where
  UserID : GoString
  RoomID : GoString
  EventID : GoString
  Type_ : GoString
  Timestamp : Nat := 0
  deriving DecidableEq, Repr

/-- Calls `onMessage` makes on its collaborators: the logger, the database, the receipt
stream provider and the notifier. -/
inductive Call where
  | LogError (err : strconv.NumError)
  | StoreReceipt (roomID receiptType userID eventID : GoString) (timestamp : Nat)
  | Advance (latest : StreamPosition)
  | OnNewReceipt (roomID : GoString) (posUpdate : StreamingToken)
  deriving DecidableEq, Repr

/-- The method `OutputReceiptEventConsumer.onMessage`. `StoreReceipt` is `s.db.StoreReceipt`, with the
result it gives on the database as it stands. The result is the call log and the returned
boolean, or `none` when `msgs[0]` panics (an empty batch). -/
def onMessage {Err : Type} (jetstream : HeaderNames)
    (StoreReceipt : GoString → GoString → GoString → GoString → Nat → Except Err StreamPosition)
    (msgs : List Msg) : Option (List Call × Bool) :=
  match msgs with
  | [] => none
  | msg :: _ =>
    let output : OutputReceiptEvent :=
      { UserID := msg.Header jetstream.UserID
        RoomID := msg.Header jetstream.RoomID
        EventID := msg.Header jetstream.EventID
        Type_ := msg.Header (ascii "type") }
    match strconv.ParseUint (msg.Header (ascii "timestamp")) with
    | .error err => some ([.LogError err], true)
    | .ok timestamp =>
      let output := { output with Timestamp := timestamp }
      match StoreReceipt output.RoomID output.Type_ output.UserID output.EventID
          output.Timestamp with
      | .error _ => some ([.StoreReceipt output.RoomID output.Type_ output.UserID
          output.EventID output.Timestamp], true)
      | .ok streamPos =>
        some ([.StoreReceipt output.RoomID output.Type_ output.UserID output.EventID
                output.Timestamp,
               .Advance streamPos,
               .OnNewReceipt output.RoomID { ReceiptPosition := streamPos }], true)

/-- An example of header names. -/
def exampleHeaderNames : HeaderNames :=
  { UserID := ascii "user_id", RoomID := ascii "room_id", EventID := ascii "event_id" }

/-- An example of a receipt message with the given timestamp header. -/
def exampleMsg (timestamp : GoString) : Msg where
  Header key :=
    if key = ascii "timestamp" then timestamp
    else if key = ascii "type" then ascii "m.read"
    else if key = ascii "room_id" then ascii "!r:a"
    else if key = ascii "user_id" then ascii "@u:a"
    else if key = ascii "event_id" then ascii "$e"
    else []

/-- An example of storage: every receipt is stored at position 42. -/
def exampleStoreReceipt : GoString → GoString → GoString → GoString → Nat →
    Except String StreamPosition :=
  fun _ _ _ _ _ => .ok 42

end consumers

namespace fclient

/-- The type `spec.ServerName`, a string type. -/
abbrev ServerName := GoString

/-- The struct `ResolutionResult`. -/
structure ResolutionResult where
  Destination : GoString := []
  Host : ServerName := []
  TLSServerName : GoString := []
  RPCDestination : GoString := []
  deriving DecidableEq, Repr

/-- The two fields of `WellKnownResult` that `resolveServer` reads; `RpcAddress` is a
pointer, `none` when nil. -/
structure WellKnownResult where
  NewAddress : ServerName
  RpcAddress : Option ServerName
  deriving DecidableEq, Repr

/-- The fields of `net.SRV` that `handleNoWellKnown` reads; `Port` is a `uint16`. -/
structure SRV where
  Target : GoString
  Port : Nat
  deriving DecidableEq, Repr

/-- An error of `net.DefaultResolver.LookupSRV`, as far as `lookupSRV` inspects it: a
`*net.DNSError` with its `IsNotFound` flag, or any other error. -/
inductive LookupError where
  | DNSError (IsNotFound : Bool)
  | other
  deriving DecidableEq, Repr

/-- What `resolve.go` calls outside the file: `spec.ParseAndValidateServerName` (host, port
with -1 for none, valid), `net.ParseIP` (true when the result is not nil), `LookupWellKnown`
(`none` when it returns an error) and `net.DefaultResolver.LookupSRV` (service, proto, name;
the records and the error). -/
structure Env where
  ParseAndValidateServerName : ServerName → GoString × Int × Bool
  ParseIP : GoString → Bool
  LookupWellKnown : ServerName → Option WellKnownResult
  LookupSRV : GoString → GoString → GoString → List SRV × Option LookupError

/-- Lookups made over the network, and the nested calls of `resolveServer`. -/
inductive Call where
  | LookupWellKnown (serverName : ServerName)
  | LookupSRV (service proto name : GoString)
  | resolveServer (serverName : ServerName) (rpcServerName : Option ServerName)
      (checkWellKnown : Bool)
  deriving DecidableEq, Repr

/-- How a piece of `resolveServer` ends: it returns `(results, err)`, it panics (an index
out of range, a nil dereference), control goes on to the statement after it, or the embedding
ran out of recursion budget. -/
inductive Flow where
  | returned (results : List ResolutionResult) (err : Option String)
  | panicked
  | next
  | outOfFuel
  deriving DecidableEq, Repr

/-- The function `strconv.Itoa` and the verb `%d`, on a number that is not negative. -/
def Itoa (n : Nat) : GoString := ascii (toString n)

/-- The function `net.JoinHostPort`: the host goes in square brackets when it holds a colon. -/
def JoinHostPort (host port : GoString) : GoString :=
  if 58 ∈ host then ascii "[" ++ host ++ ascii "]:" ++ port
  else host ++ ascii ":" ++ port

/-- The call `fmt.Sprintf("%s:%d", s, n)`. -/
def sprintfHostPort (s : GoString) (n : Nat) : GoString := s ++ ascii ":" ++ Itoa n

/-- The slice expression `s[i:j]`; `none` when it panics. -/
def slice (s : GoString) (i j : Nat) : Option GoString :=
  if i ≤ j ∧ j ≤ s.length then some ((s.take j).drop i) else none

/-- Lines 68-70 and 95-97 of `resolve.go`:
`if host[0] == '[' && host[len(host)-1] == ']' { host = host[1 : len(host)-1] }`.
`none` when `host[0]` panics, which it does on the empty string. -/
def trimBrackets (host : GoString) : Option GoString :=
  match host[0]? with
  | none => none
  | some first =>
    if first = 91 then
      match host[host.length - 1]? with
      | none => none
      | some last => if last = 93 then slice host 1 (host.length - 1) else some host
    else some host

/-- The assignment `results[0].RPCDestination = d`; `none` when `results[0]` panics. -/
def setRPCDestination (results : List ResolutionResult) (d : GoString) :
    Option (List ResolutionResult) :=
  match results with
  | [] => none
  | r :: rest => some ({ r with RPCDestination := d } :: rest)

/-- Steps 3 and 4 of `resolveServer` (lines 113-134). -/
def resolveExplicitPort (serverName : ServerName) (rpcServerName : Option ServerName)
    (host : GoString) (port rpcPort : Int) (results : List ResolutionResult) : Flow :=
  let results :=
    if port ≠ -1 then
      [{ Destination := serverName, Host := serverName, TLSServerName := host }]
    else results
  if port ≠ -1 ∧ rpcServerName = none then .returned results none
  else if rpcPort ≠ -1 then
    match rpcServerName with
    | none => .panicked
    | some rpc =>
      match setRPCDestination results rpc with
      | none => .panicked
      | some results => .returned results none
  else .next

/-- Step 2 of `resolveServer` (lines 93-111), followed by steps 3 and 4. -/
def resolveRPCLiteral (env : Env) (serverName : ServerName)
    (rpcServerName : Option ServerName) (host : GoString) (port : Int)
    (rpcHost : GoString) (rpcPort : Int) (results : List ResolutionResult) : Flow :=
  match rpcServerName with
  | none => resolveExplicitPort serverName rpcServerName host port rpcPort results
  | some rpc =>
    match trimBrackets rpcHost with
    | none => .panicked
    | some rpcHost =>
      if env.ParseIP rpcHost then
        let rpcDestination :=
          if rpcPort = -1 then JoinHostPort rpcHost (Itoa 8449) else rpc
        match setRPCDestination results rpcDestination with
        | none => .panicked
        | some results => .returned results none
      else resolveExplicitPort serverName rpcServerName host port rpcPort results

/-- Lines 49-134 of `resolveServer`: everything before the `.well-known` lookup. No call
leaves the process here. `Flow.next` means control reaches line 136. -/
def resolveDirect (env : Env) (serverName : ServerName) (rpcServerName : Option ServerName) :
    Flow :=
  match env.ParseAndValidateServerName serverName with
  | (_, _, false) => .returned [] (some "Invalid server name")
  | (host, port, true) =>
    let rpcParsed : GoString × Int × Bool :=
      match rpcServerName with
      | none => ([], -1, true)
      | some rpc => env.ParseAndValidateServerName rpc
    match rpcParsed with
    | (_, _, false) => .returned [] (some "Invalid rpc server name")
    | (rpcHost, rpcPort, true) =>
      match trimBrackets host with
      | none => .panicked
      | some host =>
        if env.ParseIP host then
          let destination :=
            if port = -1 then JoinHostPort host (Itoa 8448) else serverName
          let results : List ResolutionResult :=
            [{ Destination := destination, Host := serverName, TLSServerName := host }]
          if rpcServerName = none then .returned results none
          else resolveRPCLiteral env serverName rpcServerName host port rpcHost rpcPort results
        else resolveRPCLiteral env serverName rpcServerName host port rpcHost rpcPort []

/-- The function `lookupSRV`: the call log, the records and the error. -/
def lookupSRV (env : Env) (serverName : ServerName) :
    List Call × List SRV × Option LookupError :=
  let first := Call.LookupSRV (ascii "matrix-fed") (ascii "tcp") serverName
  let second := Call.LookupSRV (ascii "matrix") (ascii "tcp") serverName
  match env.LookupSRV (ascii "matrix-fed") (ascii "tcp") serverName with
  | (records, none) => ([first], records, none)
  | (records, some (.DNSError false)) => ([first], records, some (.DNSError false))
  | (records, some .other) => ([first], records, some .other)
  | (_, some (.DNSError true)) =>
    let (records, err) := env.LookupSRV (ascii "matrix") (ascii "tcp") serverName
    ([first, second], records, err)

/-- The body of the loop of `handleNoWellKnown` for one record, folded over the records;
`none` when `target[len(target)-1]` panics, which it does on an empty target. -/
def srvResults (serverName : ServerName) (rpcServerName : Option ServerName) :
    List SRV → List ResolutionResult → Option (List ResolutionResult)
  | [], results => some results
  | rec :: records, results =>
    match rec.Target[rec.Target.length - 1]? with
    | none => none
    | some last =>
      let target :=
        if last = 46 then rec.Target.take (rec.Target.length - 1) else rec.Target
      let RPCDestination :=
        match rpcServerName with
        | none => sprintfHostPort target 8449
        | some rpc => sprintfHostPort rpc 8449
      srvResults serverName rpcServerName records
        (results ++ [{ Destination := sprintfHostPort target rec.Port
                       Host := serverName
                       TLSServerName := serverName
                       RPCDestination := RPCDestination }])

/-- The function `handleNoWellKnown`: the call log and the results, `none` when it panics. -/
def handleNoWellKnown (env : Env) (serverName : ServerName)
    (rpcServerName : Option ServerName) : List Call × Option (List ResolutionResult) :=
  match lookupSRV env serverName with
  | (calls, records, err) =>
    if err = none ∧ records.length > 0 then
      (calls, srvResults serverName rpcServerName records [])
    else
      let RPCDestination :=
        match rpcServerName with
        | none => sprintfHostPort serverName 8449
        | some rpc => sprintfHostPort rpc 8449
      (calls, some [{ Destination := sprintfHostPort serverName 8448
                      Host := serverName
                      TLSServerName := serverName
                      RPCDestination := RPCDestination }])

/-- The statement `return handleNoWellKnown(ctx, serverName, rpcServerName), nil`. -/
def returnNoWellKnown (env : Env) (serverName : ServerName)
    (rpcServerName : Option ServerName) : List Call × Flow :=
  match handleNoWellKnown env serverName rpcServerName with
  | (calls, none) => (calls, .panicked)
  | (calls, some results) => (calls, .returned results none)

/-- The function `resolveServer`. The first argument bounds the depth of nested calls: a call at budget
0 gives `Flow.outOfFuel`, and the nested call runs at one less. The call log holds the
lookups made and, for each nested call, its arguments. -/
def resolveServer (env : Env) : Nat → ServerName → Option ServerName → Bool → List Call × Flow
  | 0, _, _, _ => ([], .outOfFuel)
  | fuel + 1, serverName, rpcServerName, checkWellKnown =>
    match resolveDirect env serverName rpcServerName with
    | .next =>
      if checkWellKnown then
        match env.LookupWellKnown serverName with
        | some result =>
          let nested := resolveServer env fuel result.NewAddress result.RpcAddress false
          (.LookupWellKnown serverName ::
            .resolveServer result.NewAddress result.RpcAddress false :: nested.1, nested.2)
        | none =>
          let rest := returnNoWellKnown env serverName rpcServerName
          (.LookupWellKnown serverName :: rest.1, rest.2)
      else returnNoWellKnown env serverName rpcServerName
    | flow => ([], flow)

/-- The function `ResolveServer`, at a given budget for `resolveServer`. -/
def ResolveServer (env : Env) (fuel : Nat) (rpcServerName : Option ServerName)
    (serverName : ServerName) : List Call × Flow :=
  resolveServer env fuel serverName rpcServerName true

/-- The number of `LookupWellKnown` calls in a call log. -/
def countWellKnown (calls : List Call) : Nat :=
  (calls.filter fun c => match c with
    | .LookupWellKnown _ => true
    | _ => false).length

/-- The number of nested `resolveServer` calls in a call log. -/
def countNested (calls : List Call) : Nat :=
  (calls.filter fun c => match c with
    | .resolveServer _ _ _ => true
    | _ => false).length

/-- Whether a call log holds a lookup over the network (`.well-known` or SRV). -/
def hasLookup (calls : List Call) : Bool :=
  calls.any fun c => match c with
    | .LookupWellKnown _ => true
    | .LookupSRV _ _ _ => true
    | .resolveServer _ _ _ => false

/-- An example of a network: four names are valid, `1.2.3.4` and `::1` are IP literals,
`example.org` delegates to `deleg.org:443` by `.well-known`, and every SRV lookup finds the
one record `a.b.:8448`. -/
def exampleEnv : Env where
  ParseAndValidateServerName := fun s =>
    if s = ascii "1.2.3.4" then (ascii "1.2.3.4", -1, true)
    else if s = ascii "[::1]" then (ascii "[::1]", -1, true)
    else if s = ascii "example.org" then (ascii "example.org", -1, true)
    else if s = ascii "deleg.org:443" then (ascii "deleg.org", 443, true)
    else ([], -1, false)
  ParseIP := fun s => s = ascii "1.2.3.4" || s = ascii "::1"
  LookupWellKnown := fun s =>
    if s = ascii "example.org" then
      some { NewAddress := ascii "deleg.org:443", RpcAddress := none }
    else none
  LookupSRV := fun _ _ _ => ([{ Target := ascii "a.b.", Port := 8448 }], none)

end fclient

end Harmony

namespace Harmony

namespace strconv

theorem decimalValue_cons (c : Nat) (s : GoString) (n : Nat) :
    decimalValue (c :: s) n = decimalValue s (n * 10 + (c - 48)) := rfl

theorem le_decimalValue (s : GoString) (n : Nat) : n ≤ decimalValue s n := by
  induction s generalizing n with
  | nil => exact Nat.le_refl n
  | cons c rest ih =>
    rw [decimalValue_cons]
    have h := ih (n * 10 + (c - 48))
    omega

/-- The loop of `ParseUint` succeeds exactly on strings of digits whose value, read onto
the accumulator, fits 64 bits, and then returns that value. -/
theorem parseUintLoop_eq_ok_iff (s : GoString) (n v : Nat) (hn : n < 2 ^ 64) :
    parseUintLoop s n = .ok v ↔
      (∀ c ∈ s, 48 ≤ c ∧ c ≤ 57) ∧ decimalValue s n ≤ 2 ^ 64 - 1 ∧ v = decimalValue s n := by
  induction s generalizing n with
  | nil =>
    simp only [parseUintLoop, decimalValue, List.foldl_nil, Except.ok.injEq]
    constructor
    · intro h
      subst h
      exact ⟨by simp, by omega, rfl⟩
    · intro h
      exact h.2.2.symm
  | cons c rest ih =>
    rw [decimalValue_cons]
    have hmono := le_decimalValue rest (n * 10 + (c - 48))
    by_cases hc : 48 ≤ c ∧ c ≤ 57
    · have hd : ¬ (10 ≤ c - 48) := by omega
      by_cases hcut : 1844674407370955162 ≤ n
      · have hval : parseUintLoop (c :: rest) n = .error .ErrRange := by
          simp [parseUintLoop, maxUint64, hc, hd, hcut]
        rw [hval]
        constructor
        · intro h
          cases h
        · intro h
          omega
      · have hn10 : n * 10 % 18446744073709551616 = n * 10 := by
          apply Nat.mod_eq_of_lt
          omega
        by_cases hov : n * 10 + (c - 48) < 18446744073709551616
        · have hn1 : (n * 10 + (c - 48)) % 18446744073709551616 = n * 10 + (c - 48) :=
            Nat.mod_eq_of_lt hov
          have hok : ¬ (18446744073709551615 < n * 10 + (c - 48)) := by omega
          have hval : parseUintLoop (c :: rest) n =
              parseUintLoop rest (n * 10 + (c - 48)) := by
            simp [parseUintLoop, maxUint64, hc, hd, hcut, hn10, hn1, hok]
          rw [hval, ih (n * 10 + (c - 48)) (by omega)]
          constructor
          · intro h
            refine ⟨?_, h.2⟩
            intro x hx
            rcases List.mem_cons.1 hx with rfl | hx
            · exact hc
            · exact h.1 x hx
          · intro h
            exact ⟨fun x hx => h.1 x (List.mem_cons_of_mem c hx), h.2⟩
        · have hwrap : (n * 10 + (c - 48)) % 18446744073709551616 < n * 10 := by omega
          have hval : parseUintLoop (c :: rest) n = .error .ErrRange := by
            simp [parseUintLoop, maxUint64, hc, hd, hcut, hn10, hwrap]
          rw [hval]
          constructor
          · intro h
            cases h
          · intro h
            omega
    · have hval : ∃ err, parseUintLoop (c :: rest) n = .error err := by
        by_cases hl : 97 ≤ lower c ∧ lower c ≤ 122
        · exact ⟨.ErrSyntax, by simp [parseUintLoop, hc, hl]⟩
        · exact ⟨.ErrSyntax, by simp [parseUintLoop, hc, hl]⟩
      obtain ⟨err, hval⟩ := hval
      rw [hval]
      constructor
      · intro h
        cases h
      · intro h
        exact absurd (h.1 c (List.mem_cons_self c rest)) hc

/-- `ParseUint(s, 10, 64)` returns `v` without error exactly when `s` is a valid base-10
unsigned 64-bit integer of value `v`. -/
theorem ParseUint_eq_ok_iff (s : GoString) (v : Nat) :
    ParseUint s = .ok v ↔ IsDecimalUint64 s ∧ v = decimalValue s 0 := by
  unfold ParseUint IsDecimalUint64
  by_cases hs : s = []
  · simp [hs]
  · simp only [hs, if_false, parseUintLoop_eq_ok_iff s 0 v (by norm_num), ne_eq,
      not_false_eq_true, true_and, and_assoc]

theorem ParseUint_of_valid (s : GoString) (h : IsDecimalUint64 s) :
    ParseUint s = .ok (decimalValue s 0) :=
  (ParseUint_eq_ok_iff s _).2 ⟨h, rfl⟩

theorem ParseUint_of_not_valid (s : GoString) (h : ¬ IsDecimalUint64 s) :
    ∃ err, ParseUint s = .error err := by
  cases hp : ParseUint s with
  | error err => exact ⟨err, rfl⟩
  | ok v => exact absurd ((ParseUint_eq_ok_iff s v).1 hp).1 h

end strconv

end Harmony

namespace Harmony

namespace streams

/-- C1. For every `Streams` value, each of the nine fields of the token `Streams.Latest`
returns is the `LatestPosition` of the provider of the same category, and of no other. -/
theorem Latest_reads_each_provider {DB Snap P : Type} (I : StreamProvider DB Snap P)
    (s : Streams P) :
    (Streams.Latest I s).PDUPosition = I.LatestPosition s.PDUStreamProvider ∧
    (Streams.Latest I s).TypingPosition = I.LatestPosition s.TypingStreamProvider ∧
    (Streams.Latest I s).ReceiptPosition = I.LatestPosition s.ReceiptStreamProvider ∧
    (Streams.Latest I s).InvitePosition = I.LatestPosition s.InviteStreamProvider ∧
    (Streams.Latest I s).SendToDevicePosition =
      I.LatestPosition s.SendToDeviceStreamProvider ∧
    (Streams.Latest I s).AccountDataPosition =
      I.LatestPosition s.AccountDataStreamProvider ∧
    (Streams.Latest I s).NotificationDataPosition =
      I.LatestPosition s.NotificationDataStreamProvider ∧
    (Streams.Latest I s).DeviceListPosition = I.LatestPosition s.DeviceListStreamProvider ∧
    (Streams.Latest I s).PresencePosition = I.LatestPosition s.PresenceStreamProvider :=
  ⟨rfl, rfl, rfl, rfl, rfl, rfl, rfl, rfl, rfl⟩

/-- C4. When `NewDatabaseSnapshot` succeeds with `snapshot`, `NewSyncStreamProviders` asks
for a snapshot once, calls `Setup` once on each of the nine providers, each time with
`snapshot`, and returns a `Streams` value; and if every provider's `Setup` sets its latest
position to the position `maxPos c` the snapshot holds for its category `c`, whatever the
live storage holds by then, `Streams.Latest` on the returned value is the nine positions of
the snapshot. The states `live 1 .. live 9` of storage after the snapshot are arbitrary. -/
theorem NewSyncStreamProviders_snapshot {DB Snap Err P : Type} (I : StreamProvider DB Snap P)
    (newSnapshot : DB → Except Err Snap) (live : Nat → DB) (snapshot : Snap)
    (hsnap : newSnapshot (live 0) = .ok snapshot) :
    (NewSyncStreamProviders I newSnapshot live).1 =
      [.NewDatabaseSnapshot, .Setup .PDU snapshot, .Setup .Typing snapshot,
       .Setup .Receipt snapshot, .Setup .Invite snapshot, .Setup .SendToDevice snapshot,
       .Setup .AccountData snapshot, .Setup .NotificationData snapshot,
       .Setup .DeviceList snapshot, .Setup .Presence snapshot,
       .EndTransactionWithCheck snapshot true] ∧
    ∃ streams, (NewSyncStreamProviders I newSnapshot live).2 = .returned streams ∧
      ∀ maxPos : Category → StreamPosition,
        (∀ c d, I.LatestPosition (I.Setup d snapshot (I.new c)) = maxPos c) →
        Streams.Latest I streams =
          { PDUPosition := maxPos .PDU
            TypingPosition := maxPos .Typing
            ReceiptPosition := maxPos .Receipt
            InvitePosition := maxPos .Invite
            SendToDevicePosition := maxPos .SendToDevice
            AccountDataPosition := maxPos .AccountData
            NotificationDataPosition := maxPos .NotificationData
            DeviceListPosition := maxPos .DeviceList
            PresencePosition := maxPos .Presence } := by
  unfold NewSyncStreamProviders
  rw [hsnap]
  refine ⟨rfl, _, rfl, ?_⟩
  intro maxPos hSetup
  simp only [Streams.Latest, hSetup]

/-- C4 on the example: the snapshot is taken at `PDU: 5, Typing: 3, Receipt: 9`, storage
moves on during the nine `Setup` calls, and `Latest` still gives the snapshot. -/
theorem NewSyncStreamProviders_snapshot_witness :
    (Except.ok : _ → Except String _) (exampleStorage 0) = .ok (exampleStorage 0) ∧
    (∀ c d, exampleProviders.LatestPosition
      (exampleProviders.Setup d (exampleStorage 0) (exampleProviders.new c)) =
        exampleStorage 0 c) ∧
    ∃ streams,
      (NewSyncStreamProviders exampleProviders (Except.ok : _ → Except String _)
        exampleStorage).2 = .returned streams ∧
      Streams.Latest exampleProviders streams =
        { PDUPosition := 5, TypingPosition := 3, ReceiptPosition := 9 } := by
  obtain ⟨_, streams, hret, hlatest⟩ :=
    NewSyncStreamProviders_snapshot exampleProviders (Except.ok : _ → Except String _)
      exampleStorage (exampleStorage 0) rfl
  exact ⟨rfl, fun _ _ => rfl, streams, hret, hlatest (exampleStorage 0) (fun _ _ => rfl)⟩

/-- C5. Whenever `NewDatabaseSnapshot` returns an error, `NewSyncStreamProviders` panics
with that error: it returns no `Streams` value and its only call is the one for the
snapshot, so `Setup` is called on none of the nine providers. -/
theorem NewSyncStreamProviders_snapshot_error {DB Snap Err P : Type}
    (I : StreamProvider DB Snap P) (newSnapshot : DB → Except Err Snap) (live : Nat → DB)
    (err : Err) (hsnap : newSnapshot (live 0) = .error err) :
    NewSyncStreamProviders I newSnapshot live = ([.NewDatabaseSnapshot], .panicked err) := by
  unfold NewSyncStreamProviders
  rw [hsnap]

/-- C5 on the example providers, with a database that refuses the snapshot. -/
theorem NewSyncStreamProviders_snapshot_error_witness :
    (fun _ => Except.error "database is closed" :
        (Category → StreamPosition) → Except String (Category → StreamPosition))
      (exampleStorage 0) = .error "database is closed" ∧
    NewSyncStreamProviders exampleProviders
      (fun _ => Except.error "database is closed" :
        (Category → StreamPosition) → Except String (Category → StreamPosition))
      exampleStorage = ([.NewDatabaseSnapshot], .panicked "database is closed") :=
  ⟨rfl, NewSyncStreamProviders_snapshot_error exampleProviders _ exampleStorage
    "database is closed" rfl⟩

end streams

end Harmony

namespace Harmony

namespace streams

theorem AdvanceAll_latest (positions : List StreamPosition) (p : DefaultStreamProvider) :
    (p.AdvanceAll positions).latest = positions.foldl max p.latest := by
  induction positions generalizing p with
  | nil => rfl
  | cons q rest ih =>
    simp only [DefaultStreamProvider.AdvanceAll, List.foldl_cons] at ih ⊢
    rw [ih]
    rfl

theorem foldl_max_eq (rest : List StreamPosition) (a b : StreamPosition) :
    rest.foldl max (max a b) = max a (rest.foldl max b) := by
  induction rest generalizing b with
  | nil => rfl
  | cons q rest ih =>
    simp only [List.foldl_cons]
    rw [max_assoc, ih]

/-- C7, as the claim states it, fails: on a provider whose mark is 10, the single call
`Advance(5)` leaves `LatestPosition` at 10, which is not `max(5) = 5`. -/
theorem AdvanceAll_not_max_of_calls :
    (DefaultStreamProvider.AdvanceAll { latest := 10 } [5]).LatestPosition = 10 ∧
    maxOf 5 [] = 5 ∧
    (DefaultStreamProvider.AdvanceAll { latest := 10 } [5]).LatestPosition ≠ maxOf 5 [] := by
  decide

/-- C7, amended. After the calls `Advance(p1) .. Advance(pn)` on one provider,
`LatestPosition` is the larger of the mark before the first call and `max(p1..pn)`; hence it
is `max(p1..pn)` whenever the mark before the first call is at most that. No `Advance` moves
the mark backward, an `Advance` with a value at or below the mark leaves the provider as it
is, and a repeated `Advance(P)` changes nothing. -/
theorem AdvanceAll_latest_eq_max (p : DefaultStreamProvider) (p1 : StreamPosition)
    (rest : List StreamPosition) :
    (p.AdvanceAll (p1 :: rest)).LatestPosition = max p.LatestPosition (maxOf p1 rest) ∧
    (p.LatestPosition ≤ maxOf p1 rest →
      (p.AdvanceAll (p1 :: rest)).LatestPosition = maxOf p1 rest) ∧
    (∀ q, p.LatestPosition ≤ (p.Advance q).LatestPosition) ∧
    (∀ q, q ≤ p.LatestPosition → p.Advance q = p) ∧
    (∀ q, (p.Advance q).Advance q = p.Advance q) := by
  have hmax : (p.AdvanceAll (p1 :: rest)).LatestPosition =
      max p.LatestPosition (maxOf p1 rest) := by
    simp only [DefaultStreamProvider.LatestPosition, AdvanceAll_latest, List.foldl_cons, maxOf]
    exact foldl_max_eq rest p.latest p1
  refine ⟨hmax, ?_, ?_, ?_, ?_⟩
  · intro h
    rw [hmax]
    exact max_eq_right h
  · intro q
    exact le_max_left _ _
  · intro q h
    cases p with
    | mk latest =>
      simp only [DefaultStreamProvider.Advance, DefaultStreamProvider.mk.injEq]
      exact max_eq_left h
  · intro q
    simp only [DefaultStreamProvider.Advance, DefaultStreamProvider.mk.injEq]
    exact max_eq_left (le_max_right _ _)

/-- C7, amended, on the out-of-order, duplicated calls 4, 9, 2, 9 from mark 3. -/
theorem AdvanceAll_latest_eq_max_witness :
    (DefaultStreamProvider.AdvanceAll { latest := 3 } [4, 9, 2, 9]).LatestPosition = 9 ∧
    maxOf 4 [9, 2, 9] = 9 ∧
    (DefaultStreamProvider.Advance { latest := 3 } 2 : DefaultStreamProvider) =
      { latest := 3 } := by
  have h := AdvanceAll_latest_eq_max { latest := 3 } 4 [9, 2, 9]
  have hm : maxOf 4 [9, 2, 9] = 9 := by decide
  refine ⟨?_, hm, ?_⟩
  · rw [h.2.1 (by rw [hm]; decide), hm]
  · exact h.2.2.2.1 2 (by decide)

end streams

namespace consumers

/-- C2. For a batch whose first message has a timestamp header that is a valid base-10
unsigned 64-bit integer, and for which `StoreReceipt`, called with the room, type, user and
event headers and the parsed timestamp, succeeds with position `p`: `onMessage` calls
`StoreReceipt`, then `Advance(p)` on the receipt stream, then `OnNewReceipt(room, token)`
on the notifier, with `room` the room-ID header and `token` holding `p` as its receipt
position and zero in the other eight; and it returns true. -/
theorem onMessage_advances_then_notifies {Err : Type} (jetstream : HeaderNames)
    (StoreReceipt : GoString → GoString → GoString → GoString → Nat →
      Except Err StreamPosition)
    (msg : Msg) (rest : List Msg) (p : StreamPosition)
    (hts : strconv.IsDecimalUint64 (msg.Header (ascii "timestamp")))
    (hstore : StoreReceipt (msg.Header jetstream.RoomID) (msg.Header (ascii "type"))
      (msg.Header jetstream.UserID) (msg.Header jetstream.EventID)
      (strconv.decimalValue (msg.Header (ascii "timestamp")) 0) = .ok p) :
    onMessage jetstream StoreReceipt (msg :: rest) =
      some ([.StoreReceipt (msg.Header jetstream.RoomID) (msg.Header (ascii "type"))
               (msg.Header jetstream.UserID) (msg.Header jetstream.EventID)
               (strconv.decimalValue (msg.Header (ascii "timestamp")) 0),
             .Advance p,
             .OnNewReceipt (msg.Header jetstream.RoomID)
               { PDUPosition := 0, TypingPosition := 0, ReceiptPosition := p,
                 InvitePosition := 0, SendToDevicePosition := 0, AccountDataPosition := 0,
                 NotificationDataPosition := 0, DeviceListPosition := 0,
                 PresencePosition := 0 }], true) := by
  simp only [onMessage, strconv.ParseUint_of_valid _ hts, hstore]

/-- C2 on the example message with timestamp `1700000000000`, stored at position 42. -/
theorem onMessage_advances_then_notifies_witness :
    strconv.IsDecimalUint64 ((exampleMsg (ascii "1700000000000")).Header (ascii "timestamp")) ∧
    onMessage exampleHeaderNames exampleStoreReceipt [exampleMsg (ascii "1700000000000")] =
      some ([.StoreReceipt (ascii "!r:a") (ascii "m.read") (ascii "@u:a") (ascii "$e")
               1700000000000,
             .Advance 42,
             .OnNewReceipt (ascii "!r:a") { ReceiptPosition := 42 }], true) :=
  ⟨by decide, onMessage_advances_then_notifies exampleHeaderNames exampleStoreReceipt
    (exampleMsg (ascii "1700000000000")) [] 42 (by decide) rfl⟩

/-- C3. For a batch whose first message has a timestamp header that is not a valid base-10
unsigned 64-bit integer, `onMessage` returns true and its only call is the one that logs the
parse error: it calls neither `StoreReceipt`, nor `Advance`, nor the notifier. -/
theorem onMessage_skips_bad_timestamp {Err : Type} (jetstream : HeaderNames)
    (StoreReceipt : GoString → GoString → GoString → GoString → Nat →
      Except Err StreamPosition)
    (msg : Msg) (rest : List Msg)
    (hts : ¬ strconv.IsDecimalUint64 (msg.Header (ascii "timestamp"))) :
    ∃ err, onMessage jetstream StoreReceipt (msg :: rest) = some ([.LogError err], true) := by
  obtain ⟨err, herr⟩ := strconv.ParseUint_of_not_valid _ hts
  exact ⟨err, by simp only [onMessage, herr]⟩

/-- C3 on the example message with the negative timestamp `-1`. -/
theorem onMessage_skips_bad_timestamp_witness :
    ¬ strconv.IsDecimalUint64 ((exampleMsg (ascii "-1")).Header (ascii "timestamp")) ∧
    ∃ err, onMessage exampleHeaderNames exampleStoreReceipt [exampleMsg (ascii "-1")] =
      some ([.LogError err], true) :=
  ⟨by decide, onMessage_skips_bad_timestamp exampleHeaderNames exampleStoreReceipt
    (exampleMsg (ascii "-1")) [] (by decide)⟩

end consumers

end Harmony

namespace Harmony

namespace fclient

theorem resolveExplicitPort_ne_outOfFuel (serverName : ServerName)
    (rpcServerName : Option ServerName) (host : GoString) (port rpcPort : Int)
    (results : List ResolutionResult) :
    resolveExplicitPort serverName rpcServerName host port rpcPort results ≠ .outOfFuel := by
  unfold resolveExplicitPort
  dsimp only
  split_ifs
  all_goals first
    | exact Flow.noConfusion
    | (cases rpcServerName with
        | none => exact Flow.noConfusion
        | some rpc =>
          dsimp only
          generalize setRPCDestination _ rpc = r
          cases r <;> exact Flow.noConfusion)

theorem resolveRPCLiteral_ne_outOfFuel (env : Env) (serverName : ServerName)
    (rpcServerName : Option ServerName) (host : GoString) (port : Int) (rpcHost : GoString)
    (rpcPort : Int) (results : List ResolutionResult) :
    resolveRPCLiteral env serverName rpcServerName host port rpcHost rpcPort results ≠
      .outOfFuel := by
  unfold resolveRPCLiteral
  cases rpcServerName with
  | none => exact resolveExplicitPort_ne_outOfFuel _ _ _ _ _ _
  | some rpc =>
    dsimp only
    cases trimBrackets rpcHost with
    | none => simp
    | some trimmed =>
      dsimp only
      split_ifs
      all_goals first
        | (generalize setRPCDestination results _ = r
           cases r <;> exact Flow.noConfusion)
        | exact resolveExplicitPort_ne_outOfFuel _ _ _ _ _ _

theorem resolveDirect_ne_outOfFuel (env : Env) (serverName : ServerName)
    (rpcServerName : Option ServerName) :
    resolveDirect env serverName rpcServerName ≠ .outOfFuel := by
  unfold resolveDirect
  rcases env.ParseAndValidateServerName serverName with ⟨host, port, valid⟩
  cases valid with
  | false => simp
  | true =>
    dsimp only
    generalize (match rpcServerName with
      | none => (([] : GoString), (-1 : Int), true)
      | some rpc => env.ParseAndValidateServerName rpc) = rpcParsed
    rcases rpcParsed with ⟨rpcHost, rpcPort, rpcValid⟩
    cases rpcValid with
    | false => simp
    | true =>
      dsimp only
      cases trimBrackets host with
      | none => simp
      | some trimmed =>
        dsimp only
        split_ifs
        all_goals first
          | exact Flow.noConfusion
          | exact resolveRPCLiteral_ne_outOfFuel _ _ _ _ _ _ _ _

theorem lookupSRV_calls (env : Env) (serverName : ServerName) :
    countWellKnown (lookupSRV env serverName).1 = 0 ∧
    countNested (lookupSRV env serverName).1 = 0 := by
  unfold lookupSRV
  split <;> simp [countWellKnown, countNested]

theorem returnNoWellKnown_calls (env : Env) (serverName : ServerName)
    (rpcServerName : Option ServerName) :
    (returnNoWellKnown env serverName rpcServerName).1 = (lookupSRV env serverName).1 ∧
    (returnNoWellKnown env serverName rpcServerName).2 ≠ .outOfFuel := by
  unfold returnNoWellKnown handleNoWellKnown
  rcases lookupSRV env serverName with ⟨calls, records, err⟩
  dsimp only
  split_ifs
  · cases srvResults serverName rpcServerName records [] <;> simp
  · simp

/-- A call of `resolveServer` with `checkWellKnown = false` runs the same at every budget
of at least one: it makes no nested call. -/
theorem resolveServer_false (env : Env) (fuel : Nat) (serverName : ServerName)
    (rpcServerName : Option ServerName) :
    resolveServer env (fuel + 1) serverName rpcServerName false =
      resolveServer env 1 serverName rpcServerName false ∧
    (resolveServer env (fuel + 1) serverName rpcServerName false).2 ≠ .outOfFuel ∧
    countWellKnown (resolveServer env (fuel + 1) serverName rpcServerName false).1 = 0 ∧
    countNested (resolveServer env (fuel + 1) serverName rpcServerName false).1 = 0 := by
  have hd := resolveDirect_ne_outOfFuel env serverName rpcServerName
  have hr := returnNoWellKnown_calls env serverName rpcServerName
  have hl := lookupSRV_calls env serverName
  unfold resolveServer
  cases hflow : resolveDirect env serverName rpcServerName with
  | next =>
    simp only [Bool.false_eq_true, if_false]
    rw [hr.1]
    exact ⟨trivial, hr.2, hl.1, hl.2⟩
  | returned results err => simp [countWellKnown, countNested]
  | panicked => simp [countWellKnown, countNested]
  | outOfFuel => exact absurd hflow hd

/-- On a host written `[` + `ip` + `]`, lines 68-70 leave `ip`. -/
theorem trimBrackets_bracketed (ip : GoString) :
    trimBrackets (ascii "[" ++ ip ++ ascii "]") = some ip := by
  have hopen : ascii "[" = [91] := by decide
  have hclose : ascii "]" = [93] := by decide
  rw [hopen, hclose]
  have hlen : ([91] ++ ip ++ [93] : GoString).length - 1 = ip.length + 1 := by
    simp
  have hlast : ([91] ++ ip ++ [93] : GoString)[ip.length + 1]? = some 93 := by
    simp
  have htake : ([91] ++ ip ++ [93] : GoString).take (ip.length + 1) = 91 :: ip := by
    simp
  unfold trimBrackets
  rw [hlen, hlast]
  simp only [List.singleton_append, List.cons_append, List.getElem?_cons_zero, if_true]
  unfold slice
  simp only [List.singleton_append, List.cons_append] at htake
  simp [htake]

/-- On a host that is not empty and not of the form `[...]`, lines 68-70 change nothing. -/
theorem trimBrackets_unbracketed (host : GoString) (hne : host ≠ [])
    (hplain : ¬ (host.head? = some 91 ∧ host.getLast? = some 93)) :
    trimBrackets host = some host := by
  cases host with
  | nil => exact absurd rfl hne
  | cons c rest =>
    unfold trimBrackets
    simp only [List.getElem?_cons_zero]
    by_cases hc : c = 91
    · subst hc
      rw [← List.getLast?_eq_getElem?]
      cases hl : (91 :: rest).getLast? with
      | none => simp at hl
      | some last =>
        have hlast : last ≠ 93 := by
          intro h
          subst h
          exact hplain ⟨rfl, hl⟩
        simp [hlast]
    · simp [hc]

theorem resolveServer_of_direct (env : Env) (fuel : Nat) (serverName : ServerName)
    (rpcServerName : Option ServerName) (checkWellKnown : Bool) (flow : Flow)
    (hflow : resolveDirect env serverName rpcServerName = flow) (hne : flow ≠ .next) :
    resolveServer env (fuel + 1) serverName rpcServerName checkWellKnown = ([], flow) := by
  rw [resolveServer]
  cases flow with
  | next => exact absurd rfl hne
  | returned results err => simp only [hflow]
  | panicked => simp only [hflow]
  | outOfFuel => simp only [hflow]

theorem resolveServer_of_wellKnown (env : Env) (fuel : Nat) (serverName : ServerName)
    (rpcServerName : Option ServerName) (result : WellKnownResult)
    (hflow : resolveDirect env serverName rpcServerName = .next)
    (hwk : env.LookupWellKnown serverName = some result) :
    resolveServer env (fuel + 1) serverName rpcServerName true =
      (.LookupWellKnown serverName ::
        .resolveServer result.NewAddress result.RpcAddress false ::
        (resolveServer env fuel result.NewAddress result.RpcAddress false).1,
       (resolveServer env fuel result.NewAddress result.RpcAddress false).2) := by
  rw [resolveServer]
  simp only [hflow, hwk, if_true]

theorem resolveServer_of_no_wellKnown (env : Env) (fuel : Nat) (serverName : ServerName)
    (rpcServerName : Option ServerName)
    (hflow : resolveDirect env serverName rpcServerName = .next)
    (hwk : env.LookupWellKnown serverName = none) :
    resolveServer env (fuel + 1) serverName rpcServerName true =
      (.LookupWellKnown serverName :: (returnNoWellKnown env serverName rpcServerName).1,
       (returnNoWellKnown env serverName rpcServerName).2) := by
  rw [resolveServer]
  simp only [hflow, hwk, if_true]

theorem not_mem_of_countNested_eq_zero (calls : List Call) (h : countNested calls = 0)
    (name : ServerName) (rpc : Option ServerName) (check : Bool) :
    Call.resolveServer name rpc check ∉ calls := by
  intro hmem
  unfold countNested at h
  have hnil := List.length_eq_zero.1 h
  have := (List.filter_eq_nil_iff.1 hnil) _ hmem
  simp at this

/-- With `checkWellKnown = true`, `resolveServer` runs the same at every budget of at least
two, never uses it up, makes at most one `LookupWellKnown` call and at most one nested
call, and that one with `checkWellKnown = false`. -/
theorem resolveServer_true (env : Env) (fuel : Nat) (serverName : ServerName)
    (rpcServerName : Option ServerName) :
    (resolveServer env (fuel + 2) serverName rpcServerName true).2 ≠ .outOfFuel ∧
    resolveServer env (fuel + 2) serverName rpcServerName true =
      resolveServer env 2 serverName rpcServerName true ∧
    (∀ name rpc check, Call.resolveServer name rpc check ∈
      (resolveServer env (fuel + 2) serverName rpcServerName true).1 → check = false) ∧
    countWellKnown (resolveServer env (fuel + 2) serverName rpcServerName true).1 ≤ 1 ∧
    countNested (resolveServer env (fuel + 2) serverName rpcServerName true).1 ≤ 1 := by
  have hd := resolveDirect_ne_outOfFuel env serverName rpcServerName
  cases hflow : resolveDirect env serverName rpcServerName with
  | next =>
    cases hwk : env.LookupWellKnown serverName with
    | some result =>
      have hn := resolveServer_false env fuel result.NewAddress result.RpcAddress
      rw [resolveServer_of_wellKnown env (fuel + 1) _ _ result hflow hwk,
        resolveServer_of_wellKnown env 1 _ _ result hflow hwk, hn.1]
      have h1 := resolveServer_false env 0 result.NewAddress result.RpcAddress
      simp only [Nat.zero_add] at h1
      refine ⟨h1.2.1, rfl, ?_, ?_, ?_⟩
      · intro name rpc check hmem
        simp only [List.mem_cons, Call.resolveServer.injEq, reduceCtorEq, false_or] at hmem
        rcases hmem with h | h
        · exact h.2.2
        · exact absurd h (not_mem_of_countNested_eq_zero _ h1.2.2.2 name rpc check)
      · have := h1.2.2.1
        simp only [countWellKnown, List.filter_cons] at this ⊢
        simp [this]
      · have := h1.2.2.2
        simp only [countNested, List.filter_cons] at this ⊢
        simp [this]
    | none =>
      have hr := returnNoWellKnown_calls env serverName rpcServerName
      have hl := lookupSRV_calls env serverName
      rw [resolveServer_of_no_wellKnown env (fuel + 1) _ _ hflow hwk,
        resolveServer_of_no_wellKnown env 1 _ _ hflow hwk, hr.1]
      refine ⟨hr.2, rfl, ?_, ?_, ?_⟩
      · intro name rpc check hmem
        simp only [List.mem_cons, reduceCtorEq, false_or] at hmem
        exact absurd hmem (not_mem_of_countNested_eq_zero _ hl.2 name rpc check)
      · have := hl.1
        simp only [countWellKnown, List.filter_cons] at this ⊢
        simp [this]
      · have := hl.2
        simp only [countNested, List.filter_cons] at this ⊢
        simp [this]
  | returned results err =>
    rw [resolveServer_of_direct env (fuel + 1) _ _ true _ hflow Flow.noConfusion,
      resolveServer_of_direct env 1 _ _ true _ hflow Flow.noConfusion]
    simp [countWellKnown, countNested]
  | panicked =>
    rw [resolveServer_of_direct env (fuel + 1) _ _ true _ hflow Flow.noConfusion,
      resolveServer_of_direct env 1 _ _ true _ hflow Flow.noConfusion]
    simp [countWellKnown, countNested]
  | outOfFuel => exact absurd hflow hd

/-- C6. For every server name that `spec.ParseAndValidateServerName` reports as not
valid, and every `rpcServerName`, `ResolveServer` returns the error "Invalid server name"
with an empty result list, and makes no lookup and no nested call. -/
theorem ResolveServer_invalid_name (env : Env) (fuel : Nat)
    (rpcServerName : Option ServerName) (serverName : ServerName) (hfuel : 0 < fuel)
    (hinvalid : (env.ParseAndValidateServerName serverName).2.2 = false) :
    ResolveServer env fuel rpcServerName serverName =
      ([], .returned [] (some "Invalid server name")) := by
  obtain ⟨k, rfl⟩ : ∃ k, fuel = k + 1 := ⟨fuel - 1, by omega⟩
  have hdirect : resolveDirect env serverName rpcServerName =
      .returned [] (some "Invalid server name") := by
    unfold resolveDirect
    rcases hparse : env.ParseAndValidateServerName serverName with ⟨host, port, valid⟩
    rw [hparse] at hinvalid
    simp only at hinvalid
    subst hinvalid
    rfl
  simp only [ResolveServer, resolveServer, hdirect]

/-- C6 on the example network, for a name that is not valid and an rpc name. -/
theorem ResolveServer_invalid_name_witness :
    0 < 2 ∧
    (exampleEnv.ParseAndValidateServerName (ascii "bad name")).2.2 = false ∧
    ResolveServer exampleEnv 2 (some (ascii "1.2.3.4")) (ascii "bad name") =
      ([], .returned [] (some "Invalid server name")) :=
  ⟨by decide, rfl, ResolveServer_invalid_name exampleEnv 2 (some (ascii "1.2.3.4"))
    (ascii "bad name") (by decide) rfl⟩

/-- C8. For every server name that is valid, with host part `host` and `rpcServerName` nil,
where `ip` is `host` without its surrounding square brackets (either `host` is `[` + `ip` +
`]`, or `host` is `ip` itself, not empty, as the host of a valid name is, and not both
opened by `[`, byte 91, and closed by `]`, byte 93) and `ip` is an IP literal:
`resolveServer` returns no error and exactly one result, with `Host` the server name,
`TLSServerName` equal to `ip`, an empty `RPCDestination`, and `Destination` the server name
itself when it carries a port and `net.JoinHostPort(ip, "8448")` when it does not; it makes
no lookup and no nested call. -/
theorem resolveServer_ip_literal (env : Env) (fuel : Nat) (serverName : ServerName)
    (checkWellKnown : Bool) (host ip : GoString) (port : Int) (hfuel : 0 < fuel)
    (hparse : env.ParseAndValidateServerName serverName = (host, port, true))
    (hhost : host = ascii "[" ++ ip ++ ascii "]" ∨
      (host = ip ∧ ip ≠ [] ∧ ¬ (ip.head? = some 91 ∧ ip.getLast? = some 93)))
    (hip : env.ParseIP ip = true) :
    resolveServer env fuel serverName none checkWellKnown =
      ([], .returned
        [{ Destination := if port = -1 then JoinHostPort ip (ascii "8448") else serverName
           Host := serverName
           TLSServerName := ip
           RPCDestination := [] }] none) := by
  obtain ⟨k, rfl⟩ : ∃ k, fuel = k + 1 := ⟨fuel - 1, by omega⟩
  have hitoa : Itoa 8448 = ascii "8448" := by decide
  have htrim : trimBrackets host = some ip := by
    rcases hhost with h | ⟨h, hne, hplain⟩
    · rw [h]
      exact trimBrackets_bracketed ip
    · rw [h]
      exact trimBrackets_unbracketed ip hne hplain
  have hdirect : resolveDirect env serverName none = .returned
      [{ Destination := if port = -1 then JoinHostPort ip (ascii "8448") else serverName
         Host := serverName
         TLSServerName := ip
         RPCDestination := [] }] none := by
    unfold resolveDirect
    rw [hparse]
    simp only [htrim, hip, if_true, hitoa]
  simp only [resolveServer, hdirect]

/-- C8 on the example network, without a port: for the IPv6 literal `[::1]` the host is
`[` + `::1` + `]`, and the one result has `TLSServerName` `::1` and `Destination`
`[::1]:8448`; for the IPv4 literal `1.2.3.4` the host has no brackets, and the one result
has `TLSServerName` `1.2.3.4` and `Destination` `1.2.3.4:8448`. -/
theorem resolveServer_ip_literal_witness :
    (0 < 2 ∧
     exampleEnv.ParseAndValidateServerName (ascii "[::1]") = (ascii "[::1]", -1, true) ∧
     ascii "[::1]" = ascii "[" ++ ascii "::1" ++ ascii "]" ∧
     exampleEnv.ParseIP (ascii "::1") = true ∧
     resolveServer exampleEnv 2 (ascii "[::1]") none true =
       ([], .returned
         [{ Destination := ascii "[::1]:8448"
            Host := ascii "[::1]"
            TLSServerName := ascii "::1"
            RPCDestination := [] }] none)) ∧
    (exampleEnv.ParseAndValidateServerName (ascii "1.2.3.4") = (ascii "1.2.3.4", -1, true) ∧
     ascii "1.2.3.4" ≠ [] ∧
     ¬ ((ascii "1.2.3.4").head? = some 91 ∧ (ascii "1.2.3.4").getLast? = some 93) ∧
     exampleEnv.ParseIP (ascii "1.2.3.4") = true ∧
     resolveServer exampleEnv 2 (ascii "1.2.3.4") none true =
       ([], .returned
         [{ Destination := ascii "1.2.3.4:8448"
            Host := ascii "1.2.3.4"
            TLSServerName := ascii "1.2.3.4"
            RPCDestination := [] }] none)) :=
  ⟨⟨by decide, rfl, by decide, rfl,
      resolveServer_ip_literal exampleEnv 2 (ascii "[::1]") true (ascii "[::1]")
        (ascii "::1") (-1) (by decide) rfl (Or.inl (by decide)) rfl⟩,
    ⟨rfl, by decide, by decide, rfl,
      resolveServer_ip_literal exampleEnv 2 (ascii "1.2.3.4") true (ascii "1.2.3.4")
        (ascii "1.2.3.4") (-1) (by decide) rfl
        (Or.inr ⟨rfl, by decide, by decide⟩) rfl⟩⟩

/-- C9. `resolveServer` ends on every input, by a return or by a run-time panic: a budget
of two nested levels is never used up, and any larger budget gives the same run. Its only
nested call passes `checkWellKnown = false`, and a call with `checkWellKnown = false` looks
up no `.well-known` file and makes no nested call; so one call of `ResolveServer` makes at
most one `LookupWellKnown` call and at most one nested `resolveServer` call. -/
theorem resolveServer_terminates (env : Env) (fuel : Nat) (serverName : ServerName)
    (rpcServerName : Option ServerName) (checkWellKnown : Bool) (hfuel : 2 ≤ fuel) :
    (resolveServer env fuel serverName rpcServerName checkWellKnown).2 ≠ .outOfFuel ∧
    resolveServer env fuel serverName rpcServerName checkWellKnown =
      resolveServer env 2 serverName rpcServerName checkWellKnown ∧
    (∀ name rpc check, Call.resolveServer name rpc check ∈
        (resolveServer env fuel serverName rpcServerName checkWellKnown).1 → check = false) ∧
    (checkWellKnown = false →
      countWellKnown (resolveServer env fuel serverName rpcServerName checkWellKnown).1 = 0 ∧
      countNested (resolveServer env fuel serverName rpcServerName checkWellKnown).1 = 0) ∧
    (ResolveServer env fuel rpcServerName serverName).2 ≠ .outOfFuel ∧
    countWellKnown (ResolveServer env fuel rpcServerName serverName).1 ≤ 1 ∧
    countNested (ResolveServer env fuel rpcServerName serverName).1 ≤ 1 := by
  obtain ⟨k, rfl⟩ : ∃ k, fuel = k + 2 := ⟨fuel - 2, by omega⟩
  have ht := resolveServer_true env k serverName rpcServerName
  have hf := resolveServer_false env (k + 1) serverName rpcServerName
  have hf1 := resolveServer_false env 1 serverName rpcServerName
  refine ⟨?_, ?_, ?_, ?_, ht.1, ht.2.2.2.1, ht.2.2.2.2⟩
  · cases checkWellKnown with
    | false => exact hf.2.1
    | true => exact ht.1
  · cases checkWellKnown with
    | false => exact hf.1.trans hf1.1.symm
    | true => exact ht.2.1
  · cases checkWellKnown with
    | false =>
      intro name rpc check hmem
      exact absurd hmem (not_mem_of_countNested_eq_zero _ hf.2.2.2 name rpc check)
    | true => exact ht.2.2.1
  · intro h
    subst h
    exact ⟨hf.2.2.1, hf.2.2.2⟩

/-- C9 on the example network, for a name that `.well-known` delegates: one lookup, one
nested call, at a budget of five as at a budget of two. -/
theorem resolveServer_terminates_witness :
    2 ≤ 5 ∧
    (ResolveServer exampleEnv 5 none (ascii "example.org")).2 ≠ .outOfFuel ∧
    countWellKnown (ResolveServer exampleEnv 5 none (ascii "example.org")).1 ≤ 1 ∧
    countNested (ResolveServer exampleEnv 5 none (ascii "example.org")).1 ≤ 1 ∧
    resolveServer exampleEnv 5 (ascii "example.org") none true =
      resolveServer exampleEnv 2 (ascii "example.org") none true :=
  have h := resolveServer_terminates exampleEnv 5 (ascii "example.org") none true (by decide)
  ⟨by decide, h.2.2.2.2.1, h.2.2.2.2.2.1, h.2.2.2.2.2.2, h.2.1⟩

end fclient

end Harmony
